import Mathlib

/-!
# Verification of the dataset-partitioning subsystem of a transfer-learning toolkit

Shallow embedding of:

* the dataset `shuffle_split` / `preprocess` operations (the operations are
  exercised by `src/tests/pytorch_tests/unit/test_datasets.py`; their bodies live
  in a module not shipped here, so they are modelled from the specification,
  constrained by the assertions of the shipped unit tests);
* the subject-level physical split utilities of
  `src/notebooks/e2e_workflows/data_utils.py` (`split_images`,
  `copy_files_src_to_tgt`, `get_subject_id`, `label2map`,
  `read_annotation_file`);
* the argument-validation prefix of `TorchvisionImageClassificationModel.train`
  from `src/tlt/models/image_classification/torchvision_image_classification_model.py`.

Python strings are modelled as `List Char`; Python runtime values (for dynamic
`isinstance` checks) as the inductive `PyObj`; machine floats as exact rationals
(all percentages exercised here are exactly representable and no rounding
boundary is crossed); raised exceptions as an `Option String` component of the
result, paired with the state at the moment of the raise.
-/

/-- Model of a dynamically typed Python value, as far as the embedded code
inspects one: `isinstance(_, float)`, `isinstance(_, list)`, `isinstance(_, int)`
(under which Python includes `bool`), and truthiness. -/
inductive PyObj where
  | pynone
  | pybool (b : Bool)
  | pyint (n : ℤ)
  | pyfloat (q : ℚ)
  | pystr (s : List Char)
  | pylist (l : List PyObj)

/-- Python truthiness of a `PyObj` (`if x:`). -/
def pyTruthy : PyObj → Bool
  | .pynone => false
  | .pybool b => b
  | .pyint n => n ≠ 0
  | .pyfloat q => q ≠ 0
  | .pystr s => !s.isEmpty
  | .pylist l => !l.isEmpty

/-- `isinstance(x, int)`: true for `int` and for `bool` (a subclass of `int`). -/
def isPyInt : PyObj → Bool
  | .pyint _ => true
  | .pybool _ => true
  | _ => false

/-- `isinstance(x, float)` (Python `bool` and `int` are not `float`). -/
def isPyFloat : PyObj → Bool
  | .pyfloat _ => true
  | _ => false

/-- A single-quote character (code point 39), as a string: the quote used by
Python's `repr` for dict keys and class names. -/
def sqt : String := String.singleton (Char.ofNat 39)

/-- `repr(type(x))`, as interpolated into error messages by `str.format`. -/
def pyTypeName : PyObj → String
  | .pynone => "<class " ++ sqt ++ "NoneType" ++ sqt ++ ">"
  | .pybool _ => "<class " ++ sqt ++ "bool" ++ sqt ++ ">"
  | .pyint _ => "<class " ++ sqt ++ "int" ++ sqt ++ ">"
  | .pyfloat _ => "<class " ++ sqt ++ "float" ++ sqt ++ ">"
  | .pystr _ => "<class " ++ sqt ++ "str" ++ sqt ++ ">"
  | .pylist _ => "<class " ++ sqt ++ "list" ++ sqt ++ ">"

/-- A linear congruential step (Numerical Recipes constants), the pseudo-random
core of the modelled shuffles. -/
def lcg (s : ℕ) : ℕ := (1664525 * s + 1013904223) % 4294967296

/-- Fisher–Yates selection driven by `lcg`: repeatedly pick the `s % length`-th
remaining element. `fuel` bounds the recursion (callers pass the list length). -/
def permAux : ℕ → ℕ → List ℕ → List ℕ
  | 0, _, _ => []
  | _ + 1, _, [] => []
  | fuel + 1, s, x :: xs =>
    let l := x :: xs
    let i := s % l.length
    l.get ⟨i, Nat.mod_lt s (Nat.succ_pos xs.length)⟩ :: permAux fuel (lcg s) (l.eraseIdx i)

/-- Modelled from the spec: the "pseudo-random shuffle keyed solely by `seed`"
used by `shuffle_split` (the repository delegates it to `torch.randperm` with a
`torch.Generator().manual_seed(seed)`, which is not shipped here; any fixed
pure permutation of `range n` keyed by the seed realises the spec's contract). -/
def randperm (seed n : ℕ) : List ℕ := permAux n seed (List.range n)

/-- The preprocessing record `{'image_size': ..., 'batch_size': ...}`. -/
structure Preprocessing where
  image_size : ℕ
  batch_size : ℕ
deriving DecidableEq, Repr

/-- The `validation_type` tag of a dataset instance. -/
inductive ValidationType where
  | recall
  | defined_split
  | shuffle_split
deriving DecidableEq, Repr

/-- The partition / preprocessing state of one dataset instance: the fields
`_dataset` length, `_train_indices`, `_validation_indices`, `_test_indices`,
`_validation_type` and `_preprocessed` of the dataset classes (initialised in
`src/tlt/datasets/image_classification/pytorch_custom_image_classification_dataset.py`). -/
structure DatasetState where
  size : ℕ
  train_indices : Option (List ℕ)
  validation_indices : Option (List ℕ)
  test_indices : Option (List ℕ)
  validation_type : ValidationType
  preprocessed : Option Preprocessing
deriving DecidableEq, Repr

/-- A freshly constructed dataset over `n` samples (constructor state of
`PyTorchCustomImageClassificationDataset.__init__`): no subsets, tag `recall`,
nothing preprocessed. -/
def freshDataset (n : ℕ) : DatasetState :=
  { size := n
    train_indices := Option.none
    validation_indices := Option.none
    test_indices := Option.none
    validation_type := ValidationType.recall
    preprocessed := Option.none }

/-- Python's `repr` of the dict `{'image_size': i, 'batch_size': b}`, as embedded
into the re-preprocessing error message. -/
def cfgRepr (p : Preprocessing) : String :=
  "\x7b" ++ sqt ++ "image_size" ++ sqt ++ ": " ++ toString p.image_size ++ ", "
    ++ sqt ++ "batch_size" ++ sqt ++ ": " ++ toString p.batch_size ++ "\x7d"

/-- The message of the single-use preprocessing guard. -/
def alreadyPreprocessedMsg (p : Preprocessing) : String :=
  "Data has already been preprocessed: " ++ cfgRepr p

/-- Modelled from the spec: `preprocess(image_size, batch_size)` of the dataset
classes (its body is not among the shipped sources; this follows spec §4.2 and
the assertions of `test_preprocessing` / `test_batching_error`).  The guard is
checked first, so a second call fails with the recorded configuration whatever
its arguments; otherwise both sizes must be positive integers, and on success
the configuration is recorded.  The result pairs the state after the call with
the raised error message, if any. -/
def preprocess (image_size batch_size : PyObj) (st : DatasetState) :
    DatasetState × Option String :=
  match st.preprocessed with
  | some cfg => (st, some (alreadyPreprocessedMsg cfg))
  | Option.none =>
    match image_size, batch_size with
    | .pyint i, .pyint b =>
      if i ≤ 0 then (st, some "image_size should be a positive integer")
      else if b ≤ 0 then (st, some "batch_size should be a positive integer")
      else ({ st with preprocessed := some ⟨i.toNat, b.toNat⟩ }, Option.none)
    | .pyint _, _ => (st, some "batch_size should be a positive integer")
    | _, _ => (st, some "image_size should be a positive integer")

/-- Exact error message of `shuffle_split` for non-float percentages
(asserted verbatim by `test_shuffle_split_errors`). -/
def floatsMsg : String := "Percentage arguments must be floats."

/-- Exact error message of `shuffle_split` for percentages summing over 1
(asserted verbatim by `test_shuffle_split_errors`). -/
def sumMsg : String := "Sum of percentage arguments must be less than or equal to 1."

/-- Modelled from the spec: `shuffle_split(train_pct, val_pct, test_pct, seed)`
of the dataset classes (its body is not among the shipped sources; this follows
spec §4.1 and the assertions of the shipped unit tests).  All three percentages
must be Python floats, their sum at most 1; then the full index range
`range(len(dataset))` is permuted by the seed-keyed shuffle and cut into a
`⌊train_pct·N⌋`-sample train slice, a `⌊val_pct·N⌋`-sample validation slice and,
when `test_pct` is non-zero, a `⌊test_pct·N⌋`-sample test slice (sizes are
fractions of the full dataset length: `test_defined_split` asserts
36000/12000/12000 out of 60000 even when a 50000-sample defined train split was
in force, so the spec's "re-partitions the train-set range only" sentence is
contradicted by the repository's own test and is not followed here).  The
`validation_type` tag becomes `shuffle_split`.  The result pairs the state
after the call with the raised error message, if any. -/
def shuffle_split (train_pct val_pct test_pct : PyObj) (seed : Option ℕ)
    (st : DatasetState) : DatasetState × Option String :=
  match train_pct, val_pct, test_pct with
  | .pyfloat t, .pyfloat v, .pyfloat s =>
    if 1 < t + v + s then (st, some sumMsg)
    else
      let n := st.size
      let idx := randperm (seed.getD 0) n
      let trainSize := (t * n).floor.toNat
      let valSize := (v * n).floor.toNat
      let testSize := (s * n).floor.toNat
      ({ st with
          train_indices := some (idx.take trainSize)
          validation_indices := some ((idx.drop trainSize).take valSize)
          test_indices :=
            if s = 0 then Option.none
            else some (((idx.drop trainSize).drop valSize).take testSize)
          validation_type := ValidationType.shuffle_split },
        Option.none)
  | _, _, _ => (st, some floatsMsg)

/-- Cut a list into consecutive batches of `bs` elements (the drop-none view of
a PyTorch `DataLoader` over a fixed index sequence; the last batch may be
short).  A zero batch size yields no batches. -/
def chunk (bs : ℕ) : List α → List (List α)
  | [] => []
  | x :: xs =>
    match bs with
    | 0 => []
    | b + 1 => (x :: xs).take (b + 1) :: chunk (b + 1) ((x :: xs).drop (b + 1))
termination_by l => l.length
decreasing_by
  simp only [List.length_drop, List.length_cons]
  omega

/-- The stream of train batches read back from a dataset instance
(`get_batch()` repeated): the preprocessed batch size cutting the train index
subset. An unpreprocessed or unsplit dataset yields no batches. -/
def trainBatches (st : DatasetState) : List (List ℕ) :=
  match st.preprocessed, st.train_indices with
  | some cfg, some idx => chunk cfg.batch_size idx
  | _, _ => []

/-- Python's `str.split(sep)` for a one-character separator, over strings
modelled as `List Char`: `"a_b_".split("_") = ["a", "b", ""]`, `"".split("_") =
[""]`.  Always returns a nonempty list. -/
def splitOnChar (c : Char) : List Char → List (List Char)
  | [] => [[]]
  | x :: xs =>
    if x = c then [] :: splitOnChar c xs
    else
      match splitOnChar c xs with
      | [] => [[x]]
      | h :: t => (x :: h) :: t

/-- A Lean string literal as a Python string value (`List Char`). -/
def pstr (s : String) : List Char := s.data

/-- The grouping key of `split_images` (data_utils.py line 45):
`'_'.join(x.split('_')[:2])` — the first two underscore-separated tokens of the
filename re-joined with the underscore, no prefix stripped. -/
def fns_root (x : List Char) : List Char :=
  List.intercalate [Char.ofNat 95] ((splitOnChar (Char.ofNat 95) x).take 2)

/-- `get_subject_id` (data_utils.py lines 66–69): take the basename
(`image_name.split("/")[-1]`), concatenate the first two underscore-separated
tokens with no separator (`"".join(...)`), and strip the first character
(`[1:]`). -/
def get_subject_id (image_name : List Char) : List Char :=
  let base := (splitOnChar (Char.ofNat 47) image_name).getLastD []
  (List.flatten ((splitOnChar (Char.ofNat 95) base).take 2)).drop 1

/-- Fuel-bounded worker for `uniqueFirst` (structural recursion on the fuel, so
concrete instances reduce inside the kernel; callers pass the list length). -/
def uniqueFirstAux [DecidableEq α] : ℕ → List α → List α
  | 0, _ => []
  | _ + 1, [] => []
  | n + 1, a :: rest => a :: uniqueFirstAux n (rest.filter (fun b => b ≠ a))

/-- The distinct elements of a list in order of first appearance: the key
sequence of a `defaultdict` filled by iteration (and of pandas `unique()`). -/
def uniqueFirst [DecidableEq α] (l : List α) : List α := uniqueFirstAux l.length l

/-- The file list `fns_dict[k]` built by
`for i, j in zip(fns_root, fns): fns_dict[i].append(j)` (data_utils.py lines
48–50): the files of `fns`, in order, whose grouping key is `k`. -/
def bucket (fns : List (List Char)) (k : List Char) : List (List Char) :=
  fns.filter (fun f => fns_root f = k)

/-- Apply an index sequence to a list (indices out of range contribute
nothing); `permuteBy xs p` for `p` a permutation of `range xs.length` is the
correspondingly shuffled copy of `xs`. -/
def permuteBy (xs : List α) (idx : List ℕ) : List α :=
  idx.filterMap (fun i => xs.get? i)

/-- The seed-keyed shuffle of an arbitrary list, built on `randperm`. -/
def shuffleL (seed : ℕ) (xs : List α) : List α :=
  permuteBy xs (randperm seed xs.length)

/-- Modelled from the documented contract of the external collaborator
`sklearn.model_selection.train_test_split(keys, test_size, random_state)` (the
spec treats the library as an opaque capability): a deterministic shuffle keyed
by `random_state`, then `ceil(test_size · n)` samples to the test side and the
rest to the train side; the two sides partition the input.  The fraction
`test_size` is passed as the pair `testNum / testDen` so the ceiling is integer
arithmetic. -/
def trainTestSplit (xs : List α) (testNum testDen : ℕ) (randomState : ℕ) :
    List α × List α :=
  let shuffled := shuffleL randomState xs
  let nTest := (testNum * xs.length + (testDen - 1)) / testDen
  (shuffled.drop nTest, shuffled.take nTest)

/-- Lexicographic comparison of Python strings, as used by `fns.sort()`. -/
def lexLe : List Char → List Char → Bool
  | [], _ => true
  | _ :: _, [] => false
  | a :: as, b :: bs => if a = b then lexLe as bs else a < b

/-- The body of `split_images` for one label directory (data_utils.py lines
43–60): sort the file names, group them by `fns_root` into `fns_dict`, split
the key list `fns_dict.keys()` 80/20 with `train_test_split(..., test_size=0.2,
random_state=100)`, and copy each key's files (`copy_files_src_to_tgt`, lines
29–35) into the train and test target directories.  Returns the file names
copied into `tgt_folder/train/label` and into `tgt_folder/test/label`. -/
def split_images_label (fns : List (List Char)) :
    List (List Char) × List (List Char) :=
  let fnsSorted := List.insertionSort (fun a b => lexLe a b = true) fns
  let keys := uniqueFirst (fnsSorted.map fns_root)
  let split := trainTestSplit keys 1 5 100
  (split.1.flatMap (bucket fnsSorted), split.2.flatMap (bucket fnsSorted))

/-- The dict-building loop of `label2map` (data_utils.py lines 120–126):
`for i, v in enumerate(unique): label_map[v] = i; reverse_label_map[i] = v`,
started at index `i`.  Dicts with distinct keys are modelled as association
lists. -/
def mkMaps (i : ℕ) : List (List Char) → List (List Char × ℕ) × List (ℕ × List Char)
  | [] => ([], [])
  | v :: rest =>
    let m := mkMaps (i + 1) rest
    ((v, i) :: m.1, (i, v) :: m.2)

/-- `label2map(df, label_column)` (data_utils.py lines 120–126) applied to the
label column `values` of the dataframe: enumerate
`df[label_column].unique().tolist()` — the distinct values in order of first
appearance — into a forward and a reverse map. -/
def label2map (values : List (List Char)) :
    List (List Char × ℕ) × List (ℕ × List Char) :=
  mkMaps 0 (uniqueFirst values)

/-- One row of the annotation dataframe, restricted to the three columns the
embedded code reads (`Patient_ID`, label and free-text data columns). -/
structure Row where
  pid : List Char
  label : List Char
  text : List Char
deriving DecidableEq, Repr

/-- `df[df[patient_id] == i]` — the rows of one subject, in dataframe order. -/
def subjectRows (df : List Row) (i : List Char) : List Row :=
  df.filter (fun r => r.pid = i)

/-- The per-subject aggregation loop of `read_annotation_file` (data_utils.py
lines 95–117).  `df` is the parsed csv; `known` is `patient_id_list` (`none`
in training/reference mode); `imageNames` are the files listed under the image
folder, used to filter the dataframe in training mode.  For each distinct
subject: join its text fields with single spaces in row order; if it carries
exactly one distinct label, emit `[label, text, pid]`; with several distinct
labels, inference mode emits the placeholder label `"Normal"` while training
mode evaluates `Warning("Conflict in labelling ....")` — a bare constructor
call that neither raises nor reports anything — and emits nothing.  The second
component collects the warnings actually surfaced to the caller (none ever
are). -/
def read_annotation_file (df : List Row) (known : Option (List (List Char)))
    (imageNames : List (List Char)) : List Row × List String :=
  let df' :=
    match known with
    | some pids => df.filter (fun r => r.pid ∈ pids)
    | Option.none => df.filter (fun r => r.pid ∈ imageNames.map get_subject_id)
  let pids := uniqueFirst (df'.map (fun r => r.pid))
  pids.foldl
    (fun acc i =>
      let rows := subjectRows df' i
      let annText := List.intercalate [Char.ofNat 32] (rows.map (fun r => r.text))
      let tempLabels := uniqueFirst (rows.map (fun r => r.label))
      match tempLabels with
      | [l] => (acc.1 ++ [⟨i, l, annText⟩], acc.2)
      | _ =>
        match known with
        | some _ => (acc.1 ++ [⟨i, pstr "Normal", annText⟩], acc.2)
        | Option.none => acc)
    ([], [])

/-- The instance fields of `TorchvisionImageClassificationModel` touched by the
validation prefix of `train` (torchvision_image_classification_model.py lines
172–234): `_device`, `_enable_auto_mixed_precision`, `_distributed`, and the
lazily filled `_model` / `_num_classes` placeholders (the latter abstracted to
opaque handles — their values come from torch). -/
structure TVModelState where
  device : String
  enable_auto_mixed_precision : Option Bool
  distributed : Bool
  model : Option ℕ
  num_classes : Option ℕ
deriving DecidableEq, Repr

/-- The `extra_layers` validation of `train` (lines 210–218): inside
`if extra_layers:` (so falsy values — `None`, `0`, `''`, `[]` — are never
examined), a truthy non-list raises
`TypeError("The extra_layers parameter must be a list of ints but found {type}")`
and a truthy list whose first non-`int` element is `x` raises
`TypeError("... but found a list containing {type(x)}")`.  Returns the message
of the raised error, if any. -/
def extraLayersError : PyObj → Option String
  | .pylist elems =>
    if pyTruthy (.pylist elems) then
      ((elems.find? (fun x => !isPyInt x)).map (fun bad =>
        "The extra_layers parameter must be a list of ints but found a list containing "
          ++ pyTypeName bad))
    else Option.none
  | x =>
    if pyTruthy x then
      some ("The extra_layers parameter must be a list of ints but found "
        ++ pyTypeName x)
    else Option.none

/-- The state updates of `train` that precede the `extra_layers` check (lines
175–208): the device fixups write `self._device`, then
`self._enable_auto_mixed_precision` (defaulted from the platform's CPU type
when the argument is `None`; left `None` when platform detection throws) and
`self._distributed` are assigned. -/
def deviceAndFlags (hpuAvail : Bool) (cpuType : Option String)
    (device : Option String) (enable_auto_mixed_precision : Option Bool)
    (distributed : Bool) (st : TVModelState) : TVModelState :=
  let st1 :=
    if device = some "hpu" ∧ !hpuAvail then { st with device := "cpu" }
    else if device = some "hpu" ∧ hpuAvail then { st with device := "hpu" }
    else if device = some "cpu" then { st with device := "cpu" }
    else st
  let st2 :=
    if st1.device = "hpu" ∧ !hpuAvail then { st1 with device := "cpu" } else st1
  let eamp :=
    match enable_auto_mixed_precision with
    | some b => some b
    | Option.none =>
      match cpuType with
      | some t => some (t = "SPR")
      | Option.none => Option.none
  { st2 with enable_auto_mixed_precision := eamp, distributed := distributed }

/-- `TorchvisionImageClassificationModel.train` up to and including the
`extra_layers` validation (lines 172–218), the span the error-handling claims
are about.  Parameters `hpuAvail` and `cpuType` model the import-time
`is_hpu_available` flag and `PlatformUtil().cpu_type` (with `none` standing for
the caught platform-detection exception); `checksOk` abstracts
`_check_train_inputs`, a pure validation of the other arguments that raises
before any of this code runs.  Mirrors the source's order: `deviceAndFlags`
updates `self._device`, `self._enable_auto_mixed_precision` and
`self._distributed`, and only then is `extra_layers` checked — so a raise at
that point leaves the three earlier fields already updated.  The training
continuation past the check (seeding, `_get_hub_model`, `_fit`) is delegated
wholesale to torch and lies outside the embedding: the state is returned
unchanged from that point on. -/
def train (hpuAvail : Bool) (cpuType : Option String) (checksOk : Bool)
    (device : Option String) (enable_auto_mixed_precision : Option Bool)
    (distributed : Bool) (extra_layers : PyObj) (st : TVModelState) :
    TVModelState × Option String :=
  if !checksOk then (st, some "invalid train inputs") else
  let st := deviceAndFlags hpuAvail cpuType device enable_auto_mixed_precision
    distributed st
  match extraLayersError extra_layers with
  | some msg => (st, some msg)
  | Option.none => (st, Option.none)

/-- The dataset state asserted by `test_defined_split` (test_datasets.py lines
66–74) right before the `shuffle_split` call: CIFAR10 loaded with
`split=[train, test]` — 60000 samples, `_train_indices == range(50000)`,
`_test_indices == range(50000, 60000)`, tag `defined_split`. -/
def definedSplitCifar : DatasetState :=
  { size := 60000
    train_indices := some (List.range 50000)
    validation_indices := Option.none
    test_indices := some (List.range' 50000 10000)
    validation_type := ValidationType.defined_split
    preprocessed := Option.none }

/-- The result of `data.shuffle_split(.6, .2, .2, seed=10)` on the defined-split
state (test_datasets.py line 77). -/
def c1Result : DatasetState × Option String :=
  shuffle_split (.pyfloat (6 / 10)) (.pyfloat (2 / 10)) (.pyfloat (2 / 10))
    (some 10) definedSplitCifar

theorem permAux_perm : ∀ (fuel s : ℕ) (xs : List ℕ), xs.length ≤ fuel →
    (permAux fuel s xs).Perm xs := by
  intro fuel
  induction fuel with
  | zero =>
    intro s xs h
    have hx : xs = [] := List.length_eq_zero.mp (Nat.le_zero.mp h)
    subst hx
    simp [permAux]
  | succ n ih =>
    intro s xs h
    match xs with
    | [] => simp [permAux]
    | x :: t =>
      have hi : s % (x :: t).length < (x :: t).length :=
        Nat.mod_lt s (Nat.succ_pos t.length)
      have hlen : ((x :: t).eraseIdx (s % (x :: t).length)).length ≤ n := by
        have h1 := List.length_eraseIdx_add_one hi
        have h2 : (x :: t).length ≤ n + 1 := h
        omega
      have hrec := ih (lcg s) _ hlen
      have hmem : (x :: t).get ⟨s % (x :: t).length, hi⟩ ∈ x :: t := List.get_mem _ _ _
      have hsplit : (x :: t).Perm
          ((x :: t).get ⟨s % (x :: t).length, hi⟩ ::
            (x :: t).eraseIdx (s % (x :: t).length)) :=
        (List.perm_cons_erase hmem).trans ((List.erase_getElem hi).cons _)
      exact (hrec.cons _).trans hsplit.symm

theorem randperm_perm (seed n : ℕ) : (randperm seed n).Perm (List.range n) :=
  permAux_perm n seed _ (by simp)

theorem randperm_length (seed n : ℕ) : (randperm seed n).length = n :=
  ((randperm_perm seed n).length_eq).trans (List.length_range n)

theorem randperm_nodup (seed n : ℕ) : (randperm seed n).Nodup :=
  ((randperm_perm seed n).nodup_iff).mpr (List.nodup_range n)

theorem mem_randperm {seed n x : ℕ} : x ∈ randperm seed n ↔ x < n := by
  rw [(randperm_perm seed n).mem_iff, List.mem_range]

theorem permuteBy_range (xs : List α) : permuteBy xs (List.range xs.length) = xs := by
  induction xs with
  | nil => rfl
  | cons a t ih =>
    show (List.range (t.length + 1)).filterMap (a :: t).get? = a :: t
    rw [List.range_succ_eq_map, List.filterMap_cons, List.filterMap_map]
    have hcomp : ((a :: t).get? ∘ Nat.succ) = t.get? := rfl
    simp only [List.get?, hcomp]
    exact congrArg (a :: ·) ih

theorem shuffleL_perm (seed : ℕ) (xs : List α) : (shuffleL seed xs).Perm xs := by
  have h : (permuteBy xs (randperm seed xs.length)).Perm (permuteBy xs (List.range xs.length)) :=
    (randperm_perm seed xs.length).filterMap (fun i => xs.get? i)
  rw [permuteBy_range xs] at h
  exact h

theorem trainTestSplit_append_perm (xs : List α) (tn td rs : ℕ) :
    ((trainTestSplit xs tn td rs).1 ++ (trainTestSplit xs tn td rs).2).Perm xs := by
  unfold trainTestSplit
  refine List.perm_append_comm.trans ?_
  rw [List.take_append_drop]
  exact shuffleL_perm rs xs

theorem trainTestSplit_disjoint (xs : List α) (tn td rs : ℕ)
    (h : xs.Nodup) :
    (trainTestSplit xs tn td rs).1.Disjoint (trainTestSplit xs tn td rs).2 := by
  unfold trainTestSplit
  have hnd : (shuffleL rs xs).Nodup := ((shuffleL_perm rs xs).nodup_iff).mpr h
  exact (List.disjoint_take_drop hnd (le_refl _)).symm

theorem uniqueFirstAux_eq_of_le [DecidableEq α] :
    ∀ {n m : ℕ} {l : List α}, l.length ≤ n → l.length ≤ m →
      uniqueFirstAux n l = uniqueFirstAux m l := by
  intro n
  induction n with
  | zero =>
    intro m l h1 _
    have hl : l = [] := List.length_eq_zero.mp (Nat.le_zero.mp h1)
    subst hl
    cases m <;> rfl
  | succ n ih =>
    intro m l h1 h2
    match l with
    | [] => cases m <;> rfl
    | a :: rest =>
      match m with
      | 0 => simp at h2
      | m + 1 =>
        simp only [uniqueFirstAux]
        congr 1
        have hle : (rest.filter (fun b => b ≠ a)).length ≤ rest.length :=
          List.length_filter_le _ _
        simp only [List.length_cons] at h1 h2
        exact ih (by omega) (by omega)

theorem uniqueFirst_cons [DecidableEq α] (a : α) (rest : List α) :
    uniqueFirst (a :: rest) = a :: uniqueFirst (rest.filter (fun b => b ≠ a)) := by
  show uniqueFirstAux (rest.length + 1) (a :: rest) = _
  simp only [uniqueFirstAux]
  congr 1
  exact uniqueFirstAux_eq_of_le (List.length_filter_le _ _) (le_refl _)

theorem mem_uniqueFirstAux [DecidableEq α] :
    ∀ {n : ℕ} {l : List α} {a : α}, a ∈ uniqueFirstAux n l → a ∈ l := by
  intro n
  induction n with
  | zero => intro l a h; simp [uniqueFirstAux] at h
  | succ n ih =>
    intro l a h
    match l with
    | [] => simp [uniqueFirstAux] at h
    | b :: rest =>
      simp only [uniqueFirstAux] at h
      rcases List.mem_cons.mp h with h | h
      · simp [h]
      · exact List.mem_cons_of_mem _ (List.mem_of_mem_filter (ih h))

theorem mem_uniqueFirst [DecidableEq α] {l : List α} {a : α} :
    a ∈ uniqueFirst l → a ∈ l := mem_uniqueFirstAux

theorem nodup_uniqueFirstAux [DecidableEq α] :
    ∀ (n : ℕ) (l : List α), (uniqueFirstAux n l).Nodup := by
  intro n
  induction n with
  | zero => intro l; simp [uniqueFirstAux]
  | succ n ih =>
    intro l
    match l with
    | [] => simp [uniqueFirstAux]
    | b :: rest =>
      simp only [uniqueFirstAux]
      refine List.nodup_cons.mpr ⟨fun hb => ?_, ih _⟩
      have := List.of_mem_filter (mem_uniqueFirstAux hb)
      simp at this

theorem nodup_uniqueFirst [DecidableEq α] (l : List α) : (uniqueFirst l).Nodup :=
  nodup_uniqueFirstAux _ _

theorem mem_uniqueFirstAux_of_mem [DecidableEq α] :
    ∀ {n : ℕ} {l : List α} {a : α}, l.length ≤ n → a ∈ l → a ∈ uniqueFirstAux n l := by
  intro n
  induction n with
  | zero => intro l a hn h; rw [List.length_eq_zero.mp (Nat.le_zero.mp hn)] at h; simp at h
  | succ n ih =>
    intro l a hn h
    match l with
    | [] => simp at h
    | b :: rest =>
      simp only [uniqueFirstAux]
      rcases List.mem_cons.mp h with h | h
      · exact h ▸ List.mem_cons_self _ _
      · by_cases hab : a = b
        · exact hab ▸ List.mem_cons_self _ _
        · refine List.mem_cons_of_mem _ (ih ?_ (List.mem_filter.mpr ⟨h, by simp [hab]⟩))
          have hle : (rest.filter (fun b2 => b2 ≠ b)).length ≤ rest.length :=
            List.length_filter_le _ _
          simp only [List.length_cons] at hn
          omega

theorem mem_uniqueFirst_of_mem [DecidableEq α] {l : List α} {a : α}
    (h : a ∈ l) : a ∈ uniqueFirst l := mem_uniqueFirstAux_of_mem (le_refl _) h

theorem flatMap_congr_of_eq {l : List α} {f g : α → List β}
    (h : ∀ a ∈ l, f a = g a) : l.flatMap f = l.flatMap g := by
  induction l with
  | nil => rfl
  | cons x t ih =>
    simp only [List.flatMap_cons]
    rw [h x (List.mem_cons_self _ _), ih (fun a ha => h a (List.mem_cons_of_mem _ ha))]

theorem flatMap_buckets_perm [DecidableEq α] [DecidableEq β] (g : α → β) :
    ∀ (n : ℕ) (l : List α), l.length ≤ n →
      ((uniqueFirst (l.map g)).flatMap (fun k => l.filter (fun f => g f = k))).Perm l := by
  intro n
  induction n with
  | zero =>
    intro l h
    have hl : l = [] := List.length_eq_zero.mp (Nat.le_zero.mp h)
    subst hl
    simp [uniqueFirst, uniqueFirstAux]
  | succ n ih =>
    intro l h
    match l with
    | [] => simp [uniqueFirst, uniqueFirstAux]
    | x :: t =>
      rw [List.map_cons, uniqueFirst_cons, List.filter_map]
      set t' := t.filter ((fun b => decide (b ≠ g x)) ∘ g) with ht'
      rw [List.flatMap_cons]
      have hhead : (x :: t).filter (fun f => g f = g x) =
          x :: t.filter (fun f => g f = g x) := by
        rw [List.filter_cons_of_pos (by simp)]
      have hbodies : (uniqueFirst (t'.map g)).flatMap
            (fun k => (x :: t).filter (fun f => g f = k)) =
          (uniqueFirst (t'.map g)).flatMap (fun k => t'.filter (fun f => g f = k)) := by
        refine flatMap_congr_of_eq (fun k hk => ?_)
        have hkmem : k ∈ t'.map g := mem_uniqueFirst hk
        have hkne : k ≠ g x := by
          rcases List.mem_map.mp hkmem with ⟨y, hy, hgy⟩
          have h3 := List.of_mem_filter hy
          have h4 : g y ≠ g x := by
            have h5 : decide (g y ≠ g x) = true := h3
            exact of_decide_eq_true h5
          exact hgy ▸ h4
        rw [List.filter_cons_of_neg (by simp [hkne.symm]), ht', List.filter_filter]
        refine (List.filter_congr (fun y hy => ?_)).symm
        by_cases hgyk : g y = k
        · simp [Function.comp, hgyk, hkne]
        · simp [Function.comp, hgyk]
      have hlen : t'.length ≤ n := by
        have h1 : t'.length ≤ t.length := List.length_filter_le _ _
        have h2 : (x :: t).length ≤ n + 1 := h
        simp only [List.length_cons] at h2
        omega
      have hrec := ih t' hlen
      have htail : (t.filter (fun f => g f = g x) ++ t').Perm t := by
        have hp := List.filter_append_perm (fun y => decide (g y = g x)) t
        have ht'eq : t' = t.filter (fun y => !decide (g y = g x)) := by
          rw [ht']
          refine List.filter_congr (fun y _ => ?_)
          simp [Function.comp, decide_not]
        rw [ht'eq]
        exact hp
      rw [hhead, hbodies, List.cons_append]
      refine List.Perm.cons x ?_
      exact ((hrec.append_left _).trans htail)

theorem mkMaps_fst_length (i : ℕ) (u : List (List Char)) :
    (mkMaps i u).1.length = u.length := by
  induction u generalizing i with
  | nil => rfl
  | cons a rest ih => simp [mkMaps, ih]

theorem mkMaps_lookup : ∀ (u : List (List Char)) (i : ℕ), u.Nodup → ∀ v ∈ u,
    ∃ k : ℕ, k < u.length ∧
      (mkMaps i u).1.lookup v = some (i + k) ∧
      (mkMaps i u).2.lookup (i + k) = some v ∧
      u.get? k = some v := by
  intro u
  induction u with
  | nil => intro i _ v hv; simp at hv
  | cons a rest ih =>
    intro i hnd v hv
    rcases List.mem_cons.mp hv with rfl | hv'
    · refine ⟨0, Nat.succ_pos _, ?_, ?_, rfl⟩
      · simp [mkMaps, List.lookup]
      · simp [mkMaps, List.lookup]
    · have hnd' := List.nodup_cons.mp hnd
      have hva : v ≠ a := fun hh => hnd'.1 (hh ▸ hv')
      obtain ⟨k, hk, h1, h2, h3⟩ := ih (i + 1) hnd'.2 v hv'
      refine ⟨k + 1, by simpa using Nat.succ_lt_succ hk, ?_, ?_, by simpa using h3⟩
      · have hne : (v == a) = false := beq_false_of_ne hva
        rw [show i + (k + 1) = (i + 1) + k by omega]
        simp only [mkMaps, List.lookup, hne]
        exact h1
      · have hne : (i + (k + 1) == i) = false := beq_false_of_ne (by omega)
        simp only [mkMaps, List.lookup, hne]
        rw [show i + (k + 1) = (i + 1) + k by omega]
        exact h2

theorem shuffle_split_ok (t v s : ℚ) (seed : Option ℕ) (st : DatasetState)
    (h : t + v + s ≤ 1) :
    shuffle_split (.pyfloat t) (.pyfloat v) (.pyfloat s) seed st =
      ({ st with
          train_indices :=
            some ((randperm (seed.getD 0) st.size).take (t * st.size).floor.toNat)
          validation_indices :=
            some (((randperm (seed.getD 0) st.size).drop
              (t * st.size).floor.toNat).take (v * st.size).floor.toNat)
          test_indices :=
            if s = 0 then Option.none
            else some ((((randperm (seed.getD 0) st.size).drop
              (t * st.size).floor.toNat).drop (v * st.size).floor.toNat).take
                (s * st.size).floor.toNat)
          validation_type := ValidationType.shuffle_split },
        Option.none) := by
  simp only [shuffle_split]
  rw [if_neg (not_lt.mpr h)]

theorem c1Result_eq :
    c1Result =
      ({ definedSplitCifar with
          train_indices := some ((randperm 10 60000).take 36000)
          validation_indices := some (((randperm 10 60000).drop 36000).take 12000)
          test_indices :=
            some ((((randperm 10 60000).drop 36000).drop 12000).take 12000)
          validation_type := ValidationType.shuffle_split },
        Option.none) := by
  have hok := shuffle_split_ok (6 / 10) (2 / 10) (2 / 10) (some 10) definedSplitCifar
    (by norm_num)
  have hsz : definedSplitCifar.size = 60000 := rfl
  rw [hsz] at hok
  have h36 : ((6 / 10 : ℚ) * (60000 : ℕ)).floor.toNat = 36000 := by
    show (⌊(6 / 10 : ℚ) * (60000 : ℕ)⌋).toNat = 36000
    norm_num
    rfl
  have h12 : ((2 / 10 : ℚ) * (60000 : ℕ)).floor.toNat = 12000 := by
    show (⌊(2 / 10 : ℚ) * (60000 : ℕ)⌋).toNat = 12000
    norm_num
    rfl
  rw [h36, h12, if_neg (by norm_num : ¬((2 : ℚ) / 10 = 0))] at hok
  simpa only [Option.getD_some] using hok

/-- **C1 (amended).** On the 60000-sample dataset with the defined split of
50000 train / 10000 test indices, `shuffle_split(0.6, 0.2, 0.2, seed=10)`
succeeds and yields exactly 36000 train, 12000 validation and 12000 test
samples, pairwise disjoint; the subsets are drawn from the full 60000-sample
index range (the defined 50000-sample train range and the 10000-sample test
range are both discarded and re-partitioned, as `test_defined_split` asserts by
its sizes), and the `validation_type` tag transitions from `defined_split` to
`shuffle_split`. -/
theorem c1_shuffle_split_after_defined_split :
    c1Result.2 = Option.none ∧
    (∃ tr va te,
      c1Result.1.train_indices = some tr ∧
      c1Result.1.validation_indices = some va ∧
      c1Result.1.test_indices = some te ∧
      tr.length = 36000 ∧ va.length = 12000 ∧ te.length = 12000 ∧
      tr.Disjoint va ∧ tr.Disjoint te ∧ va.Disjoint te ∧
      (∀ x ∈ tr, x < 60000) ∧ (∀ x ∈ va, x < 60000) ∧ (∀ x ∈ te, x < 60000)) ∧
    definedSplitCifar.validation_type = ValidationType.defined_split ∧
    c1Result.1.validation_type = ValidationType.shuffle_split := by
  have hnd : (randperm 10 60000).Nodup := randperm_nodup 10 60000
  have hlen : (randperm 10 60000).length = 60000 := randperm_length 10 60000
  have hnd2 : ((randperm 10 60000).drop 36000).Nodup :=
    (List.drop_sublist 36000 _).nodup hnd
  have d1 : ((randperm 10 60000).take 36000).Disjoint ((randperm 10 60000).drop 36000) :=
    List.disjoint_take_drop hnd (le_refl _)
  have d2 : (((randperm 10 60000).drop 36000).take 12000).Disjoint
      (((randperm 10 60000).drop 36000).drop 12000) :=
    List.disjoint_take_drop hnd2 (le_refl _)
  refine ⟨by rw [c1Result_eq], ⟨_, _, _, by rw [c1Result_eq], by rw [c1Result_eq],
    by rw [c1Result_eq], ?_, ?_, ?_, ?_, ?_, ?_, ?_, ?_, ?_⟩, rfl, by rw [c1Result_eq]⟩
  · rw [List.length_take, hlen]; norm_num
  · rw [List.length_take, List.length_drop, hlen]; norm_num
  · rw [List.length_take, List.length_drop, List.length_drop, hlen]; norm_num
  · exact fun x hx hx2 => d1 hx (List.take_subset _ _ hx2)
  · exact fun x hx hx2 => d1 hx (List.drop_subset _ _ (List.take_subset _ _ hx2))
  · exact fun x hx hx2 => d2 hx (List.take_subset _ _ hx2)
  · exact fun x hx => mem_randperm.mp (List.take_subset _ _ hx)
  · exact fun x hx => mem_randperm.mp (List.drop_subset _ _ (List.take_subset _ _ hx))
  · exact fun x hx =>
      mem_randperm.mp (List.drop_subset _ _ (List.drop_subset _ _ (List.take_subset _ _ hx)))

/-- **C1 (counterexample).** The claim as stated is false on the modelled code:
after `shuffle_split(0.6, 0.2, 0.2, seed=10)` on the 50000/10000 defined split,
(i) the original test range is *not* untouched — the test subset is replaced by
a new 12000-element one (the old one had 10000) — and (ii) the new subsets are
*not* drawn from the original 50000-sample train range: some produced index is
≥ 50000 (indeed the three disjoint subsets jointly exhaust all 60000 indices,
which cannot fit in a 50000-element range). -/
theorem c1_counterexample :
    c1Result.1.test_indices ≠ definedSplitCifar.test_indices ∧
    ¬(∀ l, (c1Result.1.train_indices = some l ∨
        c1Result.1.validation_indices = some l ∨
        c1Result.1.test_indices = some l) → ∀ x ∈ l, x < 50000) := by
  have hlen : (randperm 10 60000).length = 60000 := randperm_length 10 60000
  constructor
  · intro heq
    rw [c1Result_eq] at heq
    have h1 : ((((randperm 10 60000).drop 36000).drop 12000).take 12000).length = 12000 := by
      rw [List.length_take, List.length_drop, List.length_drop, hlen]; norm_num
    have h2 : (List.range' 50000 10000).length = 10000 := List.length_range' _ _ _
    have heq2 : (((randperm 10 60000).drop 36000).drop 12000).take 12000 =
        List.range' 50000 10000 := by
      have := heq
      simp only [definedSplitCifar, Option.some.injEq] at this
      exact this
    rw [heq2, h2] at h1
    exact absurd h1 (by norm_num)
  · intro hall
    have hmem : 59999 ∈ randperm 10 60000 := mem_randperm.mpr (by norm_num)
    have hsplit1 : randperm 10 60000 =
        (randperm 10 60000).take 36000 ++ (randperm 10 60000).drop 36000 :=
      (List.take_append_drop _ _).symm
    have hsplit2 : (randperm 10 60000).drop 36000 =
        ((randperm 10 60000).drop 36000).take 12000 ++
          ((randperm 10 60000).drop 36000).drop 12000 :=
      (List.take_append_drop _ _).symm
    have hte : (((randperm 10 60000).drop 36000).drop 12000).take 12000 =
        ((randperm 10 60000).drop 36000).drop 12000 := by
      refine List.take_of_length_le ?_
      rw [List.length_drop, List.length_drop, hlen]
    rw [hsplit1] at hmem
    rcases List.mem_append.mp hmem with hm | hm
    · have := hall _ (Or.inl (by rw [c1Result_eq])) 59999 hm
      omega
    · rw [hsplit2] at hm
      rcases List.mem_append.mp hm with hm2 | hm2
      · have := hall _ (Or.inr (Or.inl (by rw [c1Result_eq]))) 59999 hm2
        omega
      · have := hall _ (Or.inr (Or.inr (by rw [c1Result_eq]))) 59999 (by rw [hte]; exact hm2)
        omega

/-- **C2.** For every call to `shuffle_split`: if any of the three percentage
arguments is not a float, the call raises exactly
`"Percentage arguments must be floats."`; if all three are floats whose sum
exceeds 1.0, it raises exactly
`"Sum of percentage arguments must be less than or equal to 1."`; in both
failure cases the dataset's partition state is returned unchanged. -/
theorem c2_shuffle_split_validation (a b c : PyObj) (seed : Option ℕ)
    (st : DatasetState) :
    ((isPyFloat a && isPyFloat b && isPyFloat c) = false →
      shuffle_split a b c seed st = (st, some floatsMsg)) ∧
    (∀ (t v s : ℚ), a = .pyfloat t → b = .pyfloat v → c = .pyfloat s →
      1 < t + v + s → shuffle_split a b c seed st = (st, some sumMsg)) := by
  constructor
  · intro h
    cases a <;> cases b <;> cases c <;> first | rfl | simp [isPyFloat] at h
  · intro t v s ha hb hc hsum
    subst ha hb hc
    simp only [shuffle_split]
    rw [if_pos hsum]

/-- Witness for C2 at the inputs of `test_shuffle_split_errors`:
`shuffle_split(train_pct=1, val_pct=0)` (ints) raises the float message and
`shuffle_split(.5, .5, .2)` raises the sum message, both leaving the state
unchanged. -/
theorem c2_witness :
    shuffle_split (.pyint 1) (.pyint 0) (.pyfloat 0) (some 10) (freshDataset 10) =
      (freshDataset 10, some floatsMsg) ∧
    shuffle_split (.pyfloat (1 / 2)) (.pyfloat (1 / 2)) (.pyfloat (1 / 5)) (some 10)
        (freshDataset 10) =
      (freshDataset 10, some sumMsg) :=
  ⟨(c2_shuffle_split_validation _ _ _ _ _).1 rfl,
   (c2_shuffle_split_validation _ _ _ _ _).2 (1 / 2) (1 / 2) (1 / 5) rfl rfl rfl
     (by norm_num)⟩

/-- **C3.** The preprocess operation is single-use: a first successful
`preprocess(image_size, batch_size)` records `{'image_size': ..., 'batch_size':
...}`, and every subsequent `preprocess` call, with any arguments whatsoever,
fails with exactly `"Data has already been preprocessed: "` followed by the
first-recorded configuration, leaving the recorded configuration (and the whole
state) as it was after the first call — no reset transition exists. -/
theorem c3_preprocess_single_use (st : DatasetState) (i b : ℤ)
    (h0 : st.preprocessed = Option.none) (hi : 0 < i) (hb : 0 < b) :
    (preprocess (.pyint i) (.pyint b) st).2 = Option.none ∧
    (preprocess (.pyint i) (.pyint b) st).1.preprocessed = some ⟨i.toNat, b.toNat⟩ ∧
    ∀ a b2 : PyObj,
      preprocess a b2 (preprocess (.pyint i) (.pyint b) st).1 =
        ((preprocess (.pyint i) (.pyint b) st).1,
          some ("Data has already been preprocessed: " ++ cfgRepr ⟨i.toNat, b.toNat⟩)) := by
  have hstep : preprocess (.pyint i) (.pyint b) st =
      ({ st with preprocessed := some ⟨i.toNat, b.toNat⟩ }, Option.none) := by
    simp only [preprocess, h0]
    rw [if_neg (not_le.mpr hi), if_neg (not_le.mpr hb)]
  refine ⟨by rw [hstep], by rw [hstep], ?_⟩
  intro a b2
  rw [hstep]
  rfl

/-- Witness for C3 at the inputs of `test_preprocessing`: `preprocess(224, 8)`
records `{'image_size': 224, 'batch_size': 8}`; the second call
`preprocess(324, 32)` fails, leaves the state alone, and its message is
character-for-character
`"Data has already been preprocessed: {'image_size': 224, 'batch_size': 8}"`. -/
theorem c3_witness :
    (preprocess (.pyint 224) (.pyint 8) (freshDataset 150)).1.preprocessed =
      some ⟨224, 8⟩ ∧
    preprocess (.pyint 324) (.pyint 32)
        (preprocess (.pyint 224) (.pyint 8) (freshDataset 150)).1 =
      ((preprocess (.pyint 224) (.pyint 8) (freshDataset 150)).1,
        some ("Data has already been preprocessed: " ++ cfgRepr ⟨224, 8⟩)) ∧
    ("Data has already been preprocessed: " ++ cfgRepr ⟨224, 8⟩).data =
      ['D', 'a', 't', 'a', ' ', 'h', 'a', 's', ' ', 'a', 'l', 'r', 'e', 'a', 'd', 'y',
       ' ', 'b', 'e', 'e', 'n', ' ', 'p', 'r', 'e', 'p', 'r', 'o', 'c', 'e', 's', 's',
       'e', 'd', ':', ' ', '\x7b', '\'', 'i', 'm', 'a', 'g', 'e', '_', 's', 'i', 'z',
       'e', '\'', ':', ' ', '2', '2', '4', ',', ' ', '\'', 'b', 'a', 't', 'c', 'h',
       '_', 's', 'i', 'z', 'e', '\'', ':', ' ', '8', '\x7d'] := by
  have h := c3_preprocess_single_use (freshDataset 150) 224 8 rfl (by decide) (by decide)
  exact ⟨h.2.1, h.2.2 (.pyint 324) (.pyint 32), by decide⟩

/-- **C4.** Determinism of `shuffle_split`: two dataset instances built from
identical inputs (same sample count, nothing preprocessed — all other state is
irrelevant), each preprocessed with the same image size and batch size and then
shuffle-split with the same percentages and the same seed, end up with
index-identical train/validation/test subsets, and repeated batch reads return
identical batch streams. -/
theorem c4_shuffle_split_deterministic (st₁ st₂ : DatasetState)
    (hsize : st₁.size = st₂.size) (hp₁ : st₁.preprocessed = Option.none)
    (hp₂ : st₂.preprocessed = Option.none) (i b : ℤ) (hi : 0 < i) (hb : 0 < b)
    (t v s : ℚ) (hsum : t + v + s ≤ 1) (seed : Option ℕ) :
    (shuffle_split (.pyfloat t) (.pyfloat v) (.pyfloat s) seed
        (preprocess (.pyint i) (.pyint b) st₁).1).1.train_indices =
      (shuffle_split (.pyfloat t) (.pyfloat v) (.pyfloat s) seed
        (preprocess (.pyint i) (.pyint b) st₂).1).1.train_indices ∧
    (shuffle_split (.pyfloat t) (.pyfloat v) (.pyfloat s) seed
        (preprocess (.pyint i) (.pyint b) st₁).1).1.validation_indices =
      (shuffle_split (.pyfloat t) (.pyfloat v) (.pyfloat s) seed
        (preprocess (.pyint i) (.pyint b) st₂).1).1.validation_indices ∧
    (shuffle_split (.pyfloat t) (.pyfloat v) (.pyfloat s) seed
        (preprocess (.pyint i) (.pyint b) st₁).1).1.test_indices =
      (shuffle_split (.pyfloat t) (.pyfloat v) (.pyfloat s) seed
        (preprocess (.pyint i) (.pyint b) st₂).1).1.test_indices ∧
    trainBatches (shuffle_split (.pyfloat t) (.pyfloat v) (.pyfloat s) seed
        (preprocess (.pyint i) (.pyint b) st₁).1).1 =
      trainBatches (shuffle_split (.pyfloat t) (.pyfloat v) (.pyfloat s) seed
        (preprocess (.pyint i) (.pyint b) st₂).1).1 := by
  have hstep₁ : preprocess (.pyint i) (.pyint b) st₁ =
      ({ st₁ with preprocessed := some ⟨i.toNat, b.toNat⟩ }, Option.none) := by
    simp only [preprocess, hp₁]
    rw [if_neg (not_le.mpr hi), if_neg (not_le.mpr hb)]
  have hstep₂ : preprocess (.pyint i) (.pyint b) st₂ =
      ({ st₂ with preprocessed := some ⟨i.toNat, b.toNat⟩ }, Option.none) := by
    simp only [preprocess, hp₂]
    rw [if_neg (not_le.mpr hi), if_neg (not_le.mpr hb)]
  have hok₁ := shuffle_split_ok t v s seed
    { st₁ with preprocessed := some ⟨i.toNat, b.toNat⟩ } hsum
  have hok₂ := shuffle_split_ok t v s seed
    { st₂ with preprocessed := some ⟨i.toNat, b.toNat⟩ } hsum
  have hs : ({ st₁ with preprocessed := some ⟨i.toNat, b.toNat⟩ } : DatasetState).size =
      ({ st₂ with preprocessed := some ⟨i.toNat, b.toNat⟩ } : DatasetState).size := hsize
  rw [hstep₁, hstep₂, hok₁, hok₂, hs]
  exact ⟨rfl, rfl, rfl, rfl⟩

/-- Witness for C4: two 20-sample instances in different prior partition states
(one fresh, one with a stale defined split) preprocessed with
`preprocess(224, 1)` and split with `shuffle_split(.75, .25, 0.0, seed=10)`
produce identical subsets and identical batch streams. -/
theorem c4_witness :
    (shuffle_split (.pyfloat (3 / 4)) (.pyfloat (1 / 4)) (.pyfloat 0) (some 10)
        (preprocess (.pyint 224) (.pyint 1) (freshDataset 20)).1).1.train_indices =
      (shuffle_split (.pyfloat (3 / 4)) (.pyfloat (1 / 4)) (.pyfloat 0) (some 10)
        (preprocess (.pyint 224) (.pyint 1)
          ⟨20, some [3], Option.none, Option.none, ValidationType.defined_split,
            Option.none⟩).1).1.train_indices ∧
    (shuffle_split (.pyfloat (3 / 4)) (.pyfloat (1 / 4)) (.pyfloat 0) (some 10)
        (preprocess (.pyint 224) (.pyint 1) (freshDataset 20)).1).1.validation_indices =
      (shuffle_split (.pyfloat (3 / 4)) (.pyfloat (1 / 4)) (.pyfloat 0) (some 10)
        (preprocess (.pyint 224) (.pyint 1)
          ⟨20, some [3], Option.none, Option.none, ValidationType.defined_split,
            Option.none⟩).1).1.validation_indices ∧
    (shuffle_split (.pyfloat (3 / 4)) (.pyfloat (1 / 4)) (.pyfloat 0) (some 10)
        (preprocess (.pyint 224) (.pyint 1) (freshDataset 20)).1).1.test_indices =
      (shuffle_split (.pyfloat (3 / 4)) (.pyfloat (1 / 4)) (.pyfloat 0) (some 10)
        (preprocess (.pyint 224) (.pyint 1)
          ⟨20, some [3], Option.none, Option.none, ValidationType.defined_split,
            Option.none⟩).1).1.test_indices ∧
    trainBatches (shuffle_split (.pyfloat (3 / 4)) (.pyfloat (1 / 4)) (.pyfloat 0) (some 10)
        (preprocess (.pyint 224) (.pyint 1) (freshDataset 20)).1).1 =
      trainBatches (shuffle_split (.pyfloat (3 / 4)) (.pyfloat (1 / 4)) (.pyfloat 0) (some 10)
        (preprocess (.pyint 224) (.pyint 1)
          ⟨20, some [3], Option.none, Option.none, ValidationType.defined_split,
            Option.none⟩).1).1 :=
  c4_shuffle_split_deterministic (freshDataset 20)
    ⟨20, some [3], Option.none, Option.none, ValidationType.defined_split, Option.none⟩
    rfl rfl rfl 224 1 (by decide) (by decide) (3 / 4) (1 / 4) 0 (by norm_num) (some 10)

/-- **C5.** Subject-level leakage invariant of `split_images`: within a label
directory, a file copied into the train target and a file copied into the test
target can never share a subject key — every subject's files land entirely on
one side, because the 80/20 split is taken over the (duplicate-free) subject-key
list and each file travels with its own key's bucket. -/
theorem c5_no_subject_leakage (fns : List (List Char)) (f₁ f₂ : List Char)
    (h₁ : f₁ ∈ (split_images_label fns).1) (h₂ : f₂ ∈ (split_images_label fns).2) :
    fns_root f₁ ≠ fns_root f₂ := by
  simp only [split_images_label] at h₁ h₂
  obtain ⟨k₁, hk₁, hf₁⟩ := List.mem_flatMap.mp h₁
  obtain ⟨k₂, hk₂, hf₂⟩ := List.mem_flatMap.mp h₂
  have e₁ : fns_root f₁ = k₁ := by
    have hb : f₁ ∈ (List.insertionSort (fun a b => lexLe a b = true) fns).filter
        (fun f => fns_root f = k₁) := hf₁
    rw [List.mem_filter] at hb
    exact of_decide_eq_true hb.2
  have e₂ : fns_root f₂ = k₂ := by
    have hb : f₂ ∈ (List.insertionSort (fun a b => lexLe a b = true) fns).filter
        (fun f => fns_root f = k₂) := hf₂
    rw [List.mem_filter] at hb
    exact of_decide_eq_true hb.2
  have hdisj := trainTestSplit_disjoint
    (uniqueFirst ((List.insertionSort (fun a b => lexLe a b = true) fns).map fns_root))
    1 5 100 (nodup_uniqueFirst _)
  intro he
  rw [← e₁] at hk₁
  rw [← e₂] at hk₂
  rw [he] at hk₁
  exact hdisj hk₁ hk₂

/-- Witness for C5: on the label directory
`[a1_x_1.jpg, a1_x_2.jpg, b2_y_1.jpg, b2_y_2.jpg, c3_z_1.jpg]`, file
`a1_x_1.jpg` is copied to the train side and `b2_y_1.jpg` to the test side, and
their subject keys indeed differ. -/
theorem c5_witness :
    fns_root "a1_x_1.jpg".data ≠ fns_root "b2_y_1.jpg".data :=
  c5_no_subject_leakage
    ["a1_x_1.jpg".data, "a1_x_2.jpg".data, "b2_y_1.jpg".data, "b2_y_2.jpg".data,
      "c3_z_1.jpg".data]
    "a1_x_1.jpg".data "b2_y_1.jpg".data (by decide) (by decide)

/-- **C10.** Totality of the physical split: for any label directory, the files
copied by `split_images` into the train target and into the test target are
together a permutation of the directory listing — every file is copied exactly
once, to exactly one of the two targets (the 80/20 key split partitions the
subject-key set, and the buckets partition the file list). -/
theorem c10_split_images_total (fns : List (List Char)) :
    ((split_images_label fns).1 ++ (split_images_label fns).2).Perm fns := by
  simp only [split_images_label]
  rw [← List.flatMap_append]
  have hp1 := trainTestSplit_append_perm
    (uniqueFirst ((List.insertionSort (fun a b => lexLe a b = true) fns).map fns_root))
    1 5 100
  have hp2 := hp1.flatMap_right
    (bucket (List.insertionSort (fun a b => lexLe a b = true) fns))
  have hp3 := flatMap_buckets_perm fns_root
    (List.insertionSort (fun a b => lexLe a b = true) fns).length
    (List.insertionSort (fun a b => lexLe a b = true) fns) (le_refl _)
  have hp4 : (List.insertionSort (fun a b => lexLe a b = true) fns).Perm fns :=
    List.perm_insertionSort _ fns
  have hp3b : ((uniqueFirst ((List.insertionSort (fun a b => lexLe a b = true) fns).map
      fns_root)).flatMap
        (bucket (List.insertionSort (fun a b => lexLe a b = true) fns))).Perm
      (List.insertionSort (fun a b => lexLe a b = true) fns) := by
    simpa only [bucket] using hp3
  exact hp2.trans (hp3b.trans hp4)

theorem splitOnChar_not_mem {c : Char} {t : List Char} (h : c ∉ t) :
    splitOnChar c t = [t] := by
  induction t with
  | nil => rfl
  | cons x xs ih =>
    have hxc : ¬ x = c := fun he => h (he ▸ List.mem_cons_self _ _)
    have hih : splitOnChar c xs = [xs] := ih (fun hm => h (List.mem_cons_of_mem _ hm))
    simp only [splitOnChar, if_neg hxc, hih]

theorem splitOnChar_append {c : Char} {t1 rest : List Char} (h : c ∉ t1) :
    splitOnChar c (t1 ++ c :: rest) = t1 :: splitOnChar c rest := by
  induction t1 with
  | nil => simp [splitOnChar]
  | cons x xs ih =>
    have hxc : ¬ x = c := fun he => h (he ▸ List.mem_cons_self _ _)
    have hih := ih (fun hm => h (List.mem_cons_of_mem _ hm))
    simp only [List.cons_append, splitOnChar, if_neg hxc, List.append_eq, hih]

/-- **C6 (amended).** The two subject-key derivations differ.  For a filename
`t1 ++ "_" ++ t2 ++ "_" ++ rest` (no underscore inside the first two tokens, no
slash anywhere): `split_images` groups by the first two underscore-separated
tokens re-joined with the underscore and strips nothing, while `get_subject_id`
concatenates the first two tokens with no delimiter and strips one leading
character from the concatenation; the two keys never coincide on such a
filename (their lengths differ by two). -/
theorem c6_subject_key_derivations (t1 t2 rest : List Char)
    (h1 : Char.ofNat 95 ∉ t1) (h2 : Char.ofNat 95 ∉ t2)
    (hs : Char.ofNat 47 ∉ t1 ++ Char.ofNat 95 :: (t2 ++ Char.ofNat 95 :: rest)) :
    fns_root (t1 ++ Char.ofNat 95 :: (t2 ++ Char.ofNat 95 :: rest)) =
      t1 ++ Char.ofNat 95 :: t2 ∧
    get_subject_id (t1 ++ Char.ofNat 95 :: (t2 ++ Char.ofNat 95 :: rest)) =
      (t1 ++ t2).drop 1 ∧
    fns_root (t1 ++ Char.ofNat 95 :: (t2 ++ Char.ofNat 95 :: rest)) ≠
      get_subject_id (t1 ++ Char.ofNat 95 :: (t2 ++ Char.ofNat 95 :: rest)) := by
  have hsplit : splitOnChar (Char.ofNat 95) (t1 ++ Char.ofNat 95 :: (t2 ++ Char.ofNat 95 :: rest)) =
      t1 :: t2 :: splitOnChar (Char.ofNat 95) rest := by
    rw [splitOnChar_append h1, splitOnChar_append h2]
  have hslash : splitOnChar (Char.ofNat 47) (t1 ++ Char.ofNat 95 :: (t2 ++ Char.ofNat 95 :: rest)) =
      [t1 ++ Char.ofNat 95 :: (t2 ++ Char.ofNat 95 :: rest)] := splitOnChar_not_mem hs
  have hroot : fns_root (t1 ++ Char.ofNat 95 :: (t2 ++ Char.ofNat 95 :: rest)) =
      t1 ++ Char.ofNat 95 :: t2 := by
    simp [fns_root, hsplit, List.intercalate, List.intersperse]
  have hsid : get_subject_id (t1 ++ Char.ofNat 95 :: (t2 ++ Char.ofNat 95 :: rest)) =
      (t1 ++ t2).drop 1 := by
    simp [get_subject_id, hslash, hsplit]
  refine ⟨hroot, hsid, ?_⟩
  rw [hroot, hsid]
  intro he
  have hlen := congrArg List.length he
  simp only [List.length_append, List.length_cons, List.length_drop] at hlen
  omega

/-- **C6 (counterexample).** On filename `c1_02_a.jpg`, `split_images` groups by
key `c1_02` while the claimed derivation (strip one character from the
concatenation of the first two tokens — what `get_subject_id` computes) gives
`102`: the claimed rule does not describe `split_images`, and the two sites use
different keys. -/
theorem c6_counterexample :
    fns_root "c1_02_a.jpg".data = "c1_02".data ∧
    get_subject_id "c1_02_a.jpg".data = "102".data ∧
    fns_root "c1_02_a.jpg".data ≠ get_subject_id "c1_02_a.jpg".data := by
  refine ⟨by decide, by decide, by decide⟩

/-- Witness for the amended C6 at `t1 = c1`, `t2 = 02`, `rest = a.jpg`. -/
theorem c6_witness :
    fns_root ("c1".data ++ Char.ofNat 95 :: ("02".data ++ Char.ofNat 95 :: "a.jpg".data)) =
      "c1".data ++ Char.ofNat 95 :: "02".data ∧
    get_subject_id ("c1".data ++ Char.ofNat 95 :: ("02".data ++ Char.ofNat 95 :: "a.jpg".data)) =
      ("c1".data ++ "02".data).drop 1 ∧
    fns_root ("c1".data ++ Char.ofNat 95 :: ("02".data ++ Char.ofNat 95 :: "a.jpg".data)) ≠
      get_subject_id ("c1".data ++ Char.ofNat 95 :: ("02".data ++ Char.ofNat 95 :: "a.jpg".data)) :=
  c6_subject_key_derivations "c1".data "02".data "a.jpg".data
    (by decide) (by decide) (by decide)

theorem deviceAndFlags_model (hpuAvail : Bool) (cpuType : Option String)
    (device : Option String) (eamp : Option Bool) (dist : Bool) (st : TVModelState) :
    (deviceAndFlags hpuAvail cpuType device eamp dist st).model = st.model ∧
    (deviceAndFlags hpuAvail cpuType device eamp dist st).num_classes = st.num_classes := by
  unfold deviceAndFlags
  dsimp only
  split_ifs <;> exact ⟨rfl, rfl⟩

/-- **C7 (amended).** When `train` is called with `extra_layers` truthy and not
a list of integers (or a list containing a non-integer), a `TypeError` is
raised synchronously, before the model is fetched or trained — the `_model` and
`_num_classes` placeholders are untouched — but the call is *not* free of state
mutation: `_device`, `_enable_auto_mixed_precision` and `_distributed` have
already been reassigned by the time the error propagates (and a falsy invalid
`extra_layers`, such as `0` or `''`, is never checked at all). -/
theorem c7_train_extra_layers_error (hpuAvail : Bool) (cpuType : Option String)
    (device : Option String) (eamp : Option Bool) (dist : Bool) (el : PyObj)
    (st : TVModelState) (msg : String) (hmsg : extraLayersError el = some msg) :
    train hpuAvail cpuType true device eamp dist el st =
      (deviceAndFlags hpuAvail cpuType device eamp dist st, some msg) ∧
    (train hpuAvail cpuType true device eamp dist el st).1.model = st.model ∧
    (train hpuAvail cpuType true device eamp dist el st).1.num_classes =
      st.num_classes := by
  have htrain : train hpuAvail cpuType true device eamp dist el st =
      (deviceAndFlags hpuAvail cpuType device eamp dist st, some msg) := by
    unfold train
    rw [if_neg (by simp), hmsg]
  refine ⟨htrain, ?_, ?_⟩
  · rw [htrain]
    exact (deviceAndFlags_model hpuAvail cpuType device eamp dist st).1
  · rw [htrain]
    exact (deviceAndFlags_model hpuAvail cpuType device eamp dist st).2

/-- **C7 (counterexample).** The claim as stated is false: with prior state
`{device: cpu, eamp: None, distributed: False, model: None}`, the call
`train(..., enable_auto_mixed_precision=True, extra_layers="foo")` raises the
`TypeError` synchronously, yet the instance does not retain its prior state —
`_enable_auto_mixed_precision` has been changed from `None` to `True` by the
failed call. -/
theorem c7_counterexample :
    (train false Option.none true Option.none (some true) false
        (.pystr "foo".data)
        ⟨"cpu", Option.none, false, Option.none, Option.none⟩).2 =
      some ("The extra_layers parameter must be a list of ints but found <class "
        ++ sqt ++ "str" ++ sqt ++ ">") ∧
    (train false Option.none true Option.none (some true) false
        (.pystr "foo".data)
        ⟨"cpu", Option.none, false, Option.none, Option.none⟩).1.enable_auto_mixed_precision =
      some true ∧
    (⟨"cpu", Option.none, false, Option.none, Option.none⟩ :
      TVModelState).enable_auto_mixed_precision = Option.none := by
  refine ⟨by decide, by decide, rfl⟩

/-- Witness for the amended C7: the failing call of the counterexample leaves
`_model` and `_num_classes` untouched while raising the `TypeError`. -/
theorem c7_witness :
    train false Option.none true Option.none (some true) false (.pystr "foo".data)
        ⟨"cpu", Option.none, false, Option.none, Option.none⟩ =
      (deviceAndFlags false Option.none Option.none (some true) false
        ⟨"cpu", Option.none, false, Option.none, Option.none⟩,
        some ("The extra_layers parameter must be a list of ints but found <class "
          ++ sqt ++ "str" ++ sqt ++ ">")) ∧
    (train false Option.none true Option.none (some true) false (.pystr "foo".data)
        ⟨"cpu", Option.none, false, Option.none, Option.none⟩).1.model = Option.none ∧
    (train false Option.none true Option.none (some true) false (.pystr "foo".data)
        ⟨"cpu", Option.none, false, Option.none, Option.none⟩).1.num_classes =
      Option.none :=
  c7_train_extra_layers_error false Option.none Option.none (some true) false
    (.pystr "foo".data) ⟨"cpu", Option.none, false, Option.none, Option.none⟩
    ("The extra_layers parameter must be a list of ints but found <class "
      ++ sqt ++ "str" ++ sqt ++ ">") (by decide)

/-- **C8 (code evaluation).** Label-conflict aggregation as the code actually
behaves: for subject `p1` carrying two distinct labels with no known-subjects
list (training mode), the record is dropped and the surfaced-warning list is
*empty* — `Warning("Conflict in labelling ....")` is constructed and discarded,
never raised — contradicting the claim's (and the spec's intended) "a warning
is surfaced"; with a known-subjects list (inference mode) the subject is kept
with placeholder label `Normal` and space-joined text; a single-label subject
is kept with its label and space-joined, row-ordered text. -/
theorem c8_label_conflict_behavior :
    read_annotation_file
        [⟨"p1".data, "A".data, "t1".data⟩, ⟨"p1".data, "B".data, "t2".data⟩]
        Option.none ["Xp_1_a.jpg".data] = ([], []) ∧
    read_annotation_file
        [⟨"p1".data, "A".data, "t1".data⟩, ⟨"p1".data, "B".data, "t2".data⟩]
        (some ["p1".data]) [] = ([⟨"p1".data, "Normal".data, "t1 t2".data⟩], []) ∧
    read_annotation_file
        [⟨"p2".data, "A".data, "t1".data⟩, ⟨"p2".data, "A".data, "t2".data⟩]
        Option.none ["Xp_2_a.jpg".data] = ([⟨"p2".data, "A".data, "t1 t2".data⟩], []) := by
  refine ⟨by decide, by decide, by decide⟩

/-- **C9.** Label map bijection: for an input column with its distinct values in
order of first appearance, `label2map` returns a `label_map` whose size is the
number of distinct values, assigning each distinct value the zero-based index of
its first appearance, and a `reverse_label_map` that is its exact inverse:
`reverse_label_map[label_map[v]] == v` for every value `v` of the column. -/
theorem c9_label_map_bijection (values : List (List Char)) (v : List Char)
    (hv : v ∈ values) :
    (label2map values).1.length = (uniqueFirst values).length ∧
    ∃ i : ℕ, i < (uniqueFirst values).length ∧
      (label2map values).1.lookup v = some i ∧
      (label2map values).2.lookup i = some v ∧
      (uniqueFirst values).get? i = some v := by
  have hnd := nodup_uniqueFirst values
  have hmem := mem_uniqueFirst_of_mem hv
  obtain ⟨k, hk, h1, h2, h3⟩ := mkMaps_lookup (uniqueFirst values) 0 hnd v hmem
  refine ⟨mkMaps_fst_length 0 _, k, hk, ?_, ?_, h3⟩
  · simpa [label2map] using h1
  · simpa [label2map] using h2

/-- Witness for C9 on the column `[A, B, A, C]` at value `B`. -/
theorem c9_witness :
    (label2map ["A".data, "B".data, "A".data, "C".data]).1.length =
      (uniqueFirst ["A".data, "B".data, "A".data, "C".data]).length ∧
    ∃ i : ℕ, i < (uniqueFirst ["A".data, "B".data, "A".data, "C".data]).length ∧
      (label2map ["A".data, "B".data, "A".data, "C".data]).1.lookup "B".data = some i ∧
      (label2map ["A".data, "B".data, "A".data, "C".data]).2.lookup i = some "B".data ∧
      (uniqueFirst ["A".data, "B".data, "A".data, "C".data]).get? i = some "B".data :=
  c9_label_map_bijection ["A".data, "B".data, "A".data, "C".data] "B".data
    (by decide)
